import Mathlib

/-!
Shallow embedding of the Antigravity OpenAI-to-Google proxy core
(Go implementation) and verification of the frozen claims about it.

Source files embedded here:
 - internal/models/account.go   : Account record and its mutators
 - internal/storage/account.go  : UsageStore.RecordUsage (daily files)
 - internal/oauth (GetToken)    : round-robin account selection
 - internal/server proxy file   : chatCompletions, transformRequest,
   handleNormalResponse, handleStreamResponse

Conventions:
 - Go int64 values become Lean Int; where Go overflow semantics matter
   (the shift in RecordFailure) the wrap to 64-bit two-complement is
   applied explicitly via int64wrap.
 - Wall-clock reads (time.Now) become explicit parameters: now is in
   unix seconds, nowMs in unix milliseconds, matching the unit the Go
   call site uses.
 - Go float64 config knobs (temperature, topP) are modelled as Rat;
   the translated code only ever compares them with literal 0.
 - map[string]interface{} payloads that the code never inspects
   (function-call args, tool parameter schemas) are modelled as opaque
   association lists or strings.
-/

/-- Interpret an integer as a Go int64: reduce modulo two to the 64 into
the signed range. -/
def int64wrap (x : Int) : Int :=
  (x + 2 ^ 63) % 2 ^ 64 - 2 ^ 63

/-- Go strings.HasSuffix, character-exact (UTF-8 suffix equality at the
byte level coincides with character-level suffix equality). -/
def goHasSuffix (s pat : String) : Bool :=
  pat.data.isSuffixOf s.data

/-- Go strings.HasPrefix. -/
def goHasLeading (s pat : String) : Bool :=
  pat.data.isPrefixOf s.data

/-- Go strings.TrimSuffix: remove the trailing occurrence of the given
pattern when present. -/
def goTrimTrailing (s pat : String) : String :=
  if goHasSuffix s pat then String.mk (s.data.take (s.data.length - pat.data.length)) else s

/-- Go strings.TrimPrefix: remove the leading occurrence of the given
pattern when present. -/
def goTrimLeading (s pat : String) : String :=
  if goHasLeading s pat then String.mk (s.data.drop pat.data.length) else s

/-- Go strings.TrimSpace on a character list (ASCII whitespace; the Go
original also trims other Unicode space, which never occurs in the
claims checked here). -/
def goTrimSpace (s : List Char) : List Char :=
  ((s.dropWhile Char.isWhitespace).reverse.dropWhile Char.isWhitespace).reverse

/-- Index of the first occurrence of pat as a contiguous sublist, if any. -/
def findPat (pat : List Char) : List Char → Option Nat
  | [] => if pat.isEmpty then some 0 else none
  | c :: rest =>
    if pat.isPrefixOf (c :: rest) then some 0
    else (findPat pat rest).map (· + 1)

/-!
## Account model (internal/models/account.go)
-/

/-- UsageStats from internal/models/account.go. -/
structure UsageStats where
  totalTokens : Int
  inputTokens : Int
  outputTokens : Int
  requestCount : Int
  lastUsed : Option Int
  deriving DecidableEq, Repr

/-- ErrorTracking from internal/models/account.go. -/
structure ErrorTracking where
  consecutiveFailures : Int
  lastError : String
  lastErrorTime : Option Int
  failedUntil : Option Int
  rateLimitCount : Int
  rateLimitBackoff : Int
  isPermissionDenied : Bool
  deriving DecidableEq, Repr

/-- The zero value a Go `&ErrorTracking{}` literal produces. -/
def ErrorTracking.init : ErrorTracking :=
  { consecutiveFailures := 0
    lastError := ""
    lastErrorTime := none
    failedUntil := none
    rateLimitCount := 0
    rateLimitBackoff := 0
    isPermissionDenied := false }

/-- Account from internal/models/account.go.  The models map only
matters as a set of ids here. -/
structure Account where
  accountID : String
  email : String
  name : String
  accessToken : String
  refreshToken : String
  expiresIn : Int
  timestamp : Int
  enable : Bool
  models : List String
  lastRefresh : Int
  refreshStatus : String
  usage : Option UsageStats
  errorTracking : Option ErrorTracking
  deriving DecidableEq, Repr

/-- Account.IsInCooldown: true while now is strictly before failedUntil. -/
def Account.isInCooldown (now : Int) (a : Account) : Bool :=
  match a.errorTracking with
  | none => false
  | some et =>
    match et.failedUntil with
    | none => false
    | some fu => now < fu

/-- Account.NeedsRefresh: enabled, not cooling down, and within 30
minutes of token expiry (or with zeroed token metadata). -/
def Account.needsRefresh (now : Int) (a : Account) : Bool :=
  if !a.enable || a.isInCooldown now then false
  else if a.timestamp = 0 || a.expiresIn = 0 then true
  else (Int.tdiv a.timestamp 1000 + a.expiresIn) - now < 1800

/-- Account.RecordSuccess: mark refreshed, clear failure and rate-limit
tracking.  nowMs is time.Now().UnixMilli(). -/
def Account.recordSuccess (nowMs : Int) (a : Account) : Account :=
  let et := a.errorTracking.getD ErrorTracking.init
  { a with
    refreshStatus := "success"
    lastRefresh := nowMs
    errorTracking := some { et with
      consecutiveFailures := 0
      lastError := ""
      lastErrorTime := none
      failedUntil := none
      rateLimitCount := 0
      rateLimitBackoff := 0 } }

/-- Account.RecordFailure: bump consecutive failures and set a cooldown
of 1 shifted left by the new failure count seconds, clamped above at
3600.  The shift is the Go int64 shift, hence the explicit wrap. -/
def Account.recordFailure (now : Int) (err : String) (a : Account) : Account :=
  let et := a.errorTracking.getD ErrorTracking.init
  let cf := et.consecutiveFailures + 1
  let cooldown0 := int64wrap (2 ^ cf.toNat)
  let cooldown := if cooldown0 > 3600 then 3600 else cooldown0
  { a with
    refreshStatus := "failed"
    errorTracking := some { et with
      consecutiveFailures := cf
      lastError := err
      lastErrorTime := some now
      failedUntil := some (now + cooldown) } }

/-- Account.RecordRateLimit: adaptive backoff starting at 120 seconds,
doubling, clamped above at 1800 seconds. -/
def Account.recordRateLimit (now : Int) (a : Account) : Account :=
  let et := a.errorTracking.getD ErrorTracking.init
  let backoff0 : Int := if et.rateLimitBackoff > 0 then et.rateLimitBackoff * 2 else 120
  let backoff := if backoff0 > 1800 then 1800 else backoff0
  { a with
    refreshStatus := "rate_limited"
    errorTracking := some { et with
      rateLimitCount := et.rateLimitCount + 1
      lastError := "HTTP 429: Rate Limit Exceeded"
      lastErrorTime := some now
      rateLimitBackoff := backoff
      failedUntil := some (now + backoff) } }

/-- Account.RecordPermissionDenied: disable the account and mark it. -/
def Account.recordPermissionDenied (now : Int) (a : Account) : Account :=
  let et := a.errorTracking.getD ErrorTracking.init
  { a with
    refreshStatus := "permission_denied"
    enable := false
    errorTracking := some { et with
      isPermissionDenied := true
      lastError := "HTTP 403: Permission Denied - Account does not have required entitlements"
      lastErrorTime := some now } }

/-- Account.RecordUsage: additive usage bookkeeping plus last-used stamp. -/
def Account.recordUsage (nowMs inputTokens outputTokens : Int) (a : Account) : Account :=
  let u := a.usage.getD { totalTokens := 0, inputTokens := 0, outputTokens := 0,
                          requestCount := 0, lastUsed := none }
  { a with usage := some { u with
      requestCount := u.requestCount + 1
      totalTokens := u.totalTokens + inputTokens + outputTokens
      inputTokens := u.inputTokens + inputTokens
      outputTokens := u.outputTokens + outputTokens
      lastUsed := some nowMs } }

/-- Current rate-limit backoff as RecordRateLimit reads it (zero when no
tracking record exists yet). -/
def Account.curRateLimitBackoff (a : Account) : Int :=
  (a.errorTracking.getD ErrorTracking.init).rateLimitBackoff

/-- Current rate-limit counter. -/
def Account.curRateLimitCount (a : Account) : Int :=
  (a.errorTracking.getD ErrorTracking.init).rateLimitCount

/-- Current cooldown deadline. -/
def Account.curFailedUntil (a : Account) : Option Int :=
  (a.errorTracking.getD ErrorTracking.init).failedUntil

/-- A fresh account as the OAuth callback creates it: enabled, no usage
or error tracking yet. -/
def freshAccount : Account :=
  { accountID := "acc_1"
    email := "user@example.com"
    name := "user"
    accessToken := "tok"
    refreshToken := "rtok"
    expiresIn := 3599
    timestamp := 1700000000000
    enable := true
    models := []
    lastRefresh := 0
    refreshStatus := ""
    usage := none
    errorTracking := none }

/-!
## Account pool selection (oauth Client.GetToken)
-/

/-- The observable effect of a successful RefreshToken call on the
account record: new token material, refreshed model list, then
Account.RecordSuccess.  The expiry is the absolute unix second of the
new token, turned into expires-in seconds as the Go code does. -/
structure RefreshData where
  accessToken : String
  refreshToken : String
  expiry : Int
  models : Option (List String)
  deriving DecidableEq, Repr

/-- Client.RefreshToken success path applied to an account. -/
def refreshApply (now nowMs : Int) (d : RefreshData) (a : Account) : Account :=
  let a := { a with accessToken := d.accessToken }
  let a := if d.refreshToken ≠ "" then { a with refreshToken := d.refreshToken } else a
  let a := { a with expiresIn := d.expiry - now, timestamp := nowMs }
  let a := match d.models with
    | some ms => { a with models := ms }
    | none => a
  a.recordSuccess nowMs

inductive PoolError where
  | noAccounts
  | noUsableAccount
  deriving DecidableEq, Repr

/-- The rotation loop body of Client.GetToken.  store holds the
per-position Load result (none models a load error), refreshData the
per-position RefreshToken outcome (none models a failed refresh). -/
def getTokenLoop (store : List (Option Account)) (refreshData : Nat → Option RefreshData)
    (now nowMs : Int) : Nat → Nat → Option Account
  | 0, _ => none
  | fuel + 1, idx =>
    let idx2 := (idx + 1) % store.length
    match store.getD idx2 none with
    | none => getTokenLoop store refreshData now nowMs fuel idx2
    | some a =>
      if !a.enable then getTokenLoop store refreshData now nowMs fuel idx2
      else if a.isInCooldown now then getTokenLoop store refreshData now nowMs fuel idx2
      else if a.needsRefresh now then
        match refreshData idx2 with
        | none => getTokenLoop store refreshData now nowMs fuel idx2
        | some d => some (refreshApply now nowMs d a)
      else some a

/-- Client.GetToken: round-robin walk of at most store.length positions
starting one past the cursor. -/
def getToken (store : List (Option Account)) (refreshData : Nat → Option RefreshData)
    (now nowMs : Int) (cursor : Nat) : Except PoolError Account :=
  if store.length = 0 then .error .noAccounts
  else
    match getTokenLoop store refreshData now nowMs store.length cursor with
    | some a => .ok a
    | none => .error .noUsableAccount

/-!
## Usage store (internal/storage/account.go, UsageStore)
-/

/-- UsageRecord from internal/storage/account.go. -/
structure UsageRecord where
  date : String
  accountID : String
  totalTokens : Int
  inputTokens : Int
  outputTokens : Int
  requestCount : Int
  deriving DecidableEq, Repr

/-- The file a daily record lives in. -/
def usageFileName (today accountID : String) : String :=
  today ++ "_" ++ accountID ++ ".json"

/-- UsageStore.RecordUsage: load or create the daily record for
(today, accountID) and add the new token counts to it.  existing is the
current parsed content of the daily file, if the file exists. -/
def UsageStore.recordUsage (today accountID : String) (existing : Option UsageRecord)
    (inputTokens outputTokens : Int) : UsageRecord :=
  let record := match existing with
    | some r => r
    | none =>
      { date := today, accountID := accountID, totalTokens := 0,
        inputTokens := 0, outputTokens := 0, requestCount := 0 }
  { record with
    inputTokens := record.inputTokens + inputTokens
    outputTokens := record.outputTokens + outputTokens
    totalTokens := record.totalTokens + inputTokens + outputTokens
    requestCount := record.requestCount + 1 }

/-!
## Wire shapes (internal/models, OpenAI and Google sides)
-/

/-- OpenAI Function payload; the parameter schema is opaque JSON. -/
structure OAIFunction where
  name : String
  description : String
  parameters : String
  deriving DecidableEq, Repr

/-- OpenAI Tool payload. -/
structure OAITool where
  type : String
  function : OAIFunction
  deriving DecidableEq, Repr

/-- OpenAI ToolCall payload (response side). -/
structure ToolCall where
  id : String
  type : String
  function : OAIFunction
  deriving DecidableEq, Repr

/-- One element of an array-valued OpenAI message content, as the Go
type switch sees it: a map whose type key selects text or image_url.
Maps missing the expected string fields are the none cases; anything
else is skipped. -/
inductive OAIItem where
  | textPart (text : Option String)
  | imagePart (url : Option String)
  | otherItem
  deriving DecidableEq, Repr

/-- The interface-typed content field: a JSON string, a JSON array, or
anything else (which contributes no parts). -/
inductive OAIContent where
  | str (s : String)
  | items (l : List OAIItem)
  | other
  deriving DecidableEq, Repr

/-- OpenAI chat message (request side). -/
structure OAIMessage where
  role : String
  content : OAIContent
  deriving DecidableEq, Repr

/-- OpenAI ChatCompletionRequest.  Floats are modelled as Rat; absent
numeric fields decode to 0 in Go, so 0 means unspecified. -/
structure ChatCompletionRequest where
  model : String
  messages : List OAIMessage
  stream : Bool
  maxTokens : Int
  temperature : Rat
  topP : Rat
  topK : Int
  tools : List OAITool
  deriving DecidableEq, Repr

/-- Google functionCall part payload; args is an opaque JSON object. -/
structure GoogleFunctionCall where
  id : String
  name : String
  args : List (String × String)
  deriving DecidableEq, Repr

/-- Google functionResponse part payload. -/
structure GoogleFunctionResponse where
  id : String
  name : String
  response : List (String × String)
  deriving DecidableEq, Repr

/-- Google inlineData part payload. -/
structure GoogleInlineData where
  mimeType : String
  data : String
  deriving DecidableEq, Repr

/-- GooglePart: exactly the fields of the Go struct. -/
structure GooglePart where
  text : String := ""
  inlineData : Option GoogleInlineData := none
  functionCall : Option GoogleFunctionCall := none
  functionResponse : Option GoogleFunctionResponse := none
  thought : Bool := false
  deriving DecidableEq, Repr

/-- GoogleContent: a role plus parts. -/
structure GoogleContent where
  role : String
  parts : List GooglePart
  deriving DecidableEq, Repr

/-- GoogleThinkingConfig as built by transformRequest. -/
structure GoogleThinkingConfig where
  includeThoughts : Bool
  thinkingBudget : Int
  deriving DecidableEq, Repr

/-- GoogleGenerationConfig. -/
structure GoogleGenerationConfig where
  topP : Option Rat := none
  topK : Option Int := none
  temperature : Option Rat := none
  candidateCount : Int
  maxOutputTokens : Option Int := none
  stopSequences : List String
  thinkingConfig : Option GoogleThinkingConfig := none
  deriving DecidableEq, Repr

/-- GoogleSystemInstruction. -/
structure GoogleSystemInstruction where
  role : String
  parts : List GooglePart
  deriving DecidableEq, Repr

/-- GoogleFunctionDeclaration; the schema is passed through opaquely. -/
structure GoogleFunctionDeclaration where
  name : String
  description : String
  parameters : String
  deriving DecidableEq, Repr

/-- GoogleTool: one group of function declarations. -/
structure GoogleTool where
  functionDeclarations : List GoogleFunctionDeclaration
  deriving DecidableEq, Repr

/-- GoogleInner, the request element of the vendor envelope. -/
structure GoogleInner where
  contents : List GoogleContent
  generationConfig : GoogleGenerationConfig
  sessionID : String
  systemInstruction : Option GoogleSystemInstruction
  tools : List GoogleTool
  deriving DecidableEq, Repr

/-- GoogleRequest envelope. -/
structure GoogleRequest where
  project : String
  requestID : String
  model : String
  userAgent : String
  request : GoogleInner
  deriving DecidableEq, Repr

/-!
## Request translator (transformRequest)
-/

/-- The enableThinking condition of transformRequest. -/
def thinkingEnabled (model : String) : Bool :=
  goHasSuffix model "-thinking" || model == "gemini-2.5-pro" ||
    goHasLeading model "gemini-3-pro-"

/-- Parts contributed by one element of an array-valued content, per the
type switch in transformRequest. -/
def itemToParts : OAIItem → List GooglePart
  | .textPart (some t) => [{ text := t }]
  | .textPart none => []
  | .imagePart (some url) =>
    if goHasLeading url "data:image/" then
      match url.splitOn ";base64," with
      | [p0, p1] =>
        [{ inlineData := some { mimeType := goTrimLeading p0 "data:", data := p1 } }]
      | _ => []
    else []
  | .imagePart none => []
  | .otherItem => []

/-- Parts of one message content value: a bare string becomes one text
part, an array is translated item-wise, anything else yields no parts. -/
def contentToParts : OAIContent → List GooglePart
  | .str s => [{ text := s }]
  | .items l => l.flatMap itemToParts
  | .other => []

/-- One step of the message loop: a system message overwrites the
system instruction (its content only counts when it is a string); any
other message is appended to contents with assistant renamed to model. -/
def transformMessagesStep (acc : List GoogleContent × Option GoogleSystemInstruction)
    (msg : OAIMessage) : List GoogleContent × Option GoogleSystemInstruction :=
  if msg.role == "system" then
    let text := match msg.content with
      | .str s => s
      | _ => ""
    (acc.1, some { role := "user", parts := [{ text := text }] })
  else
    let role := if msg.role == "assistant" then "model" else msg.role
    (acc.1 ++ [{ role := role, parts := contentToParts msg.content }], acc.2)

/-- The message loop of transformRequest. -/
def transformMessages (msgs : List OAIMessage) :
    List GoogleContent × Option GoogleSystemInstruction :=
  msgs.foldl transformMessagesStep ([], none)

/-- The generation-config block of transformRequest: copy non-zero
knobs, then apply the thinking override. -/
def buildGenConfig (req : ChatCompletionRequest) : GoogleGenerationConfig :=
  let g : GoogleGenerationConfig :=
    { candidateCount := 1
      stopSequences := ["<|user|>", "<|bot|>", "<|context_request|>",
                        "<|endoftext|>", "<|end_of_turn|>"] }
  let g := if req.temperature ≠ 0 then { g with temperature := some req.temperature } else g
  let g := if req.topP ≠ 0 then { g with topP := some req.topP } else g
  let g := if req.topK ≠ 0 then { g with topK := some req.topK } else g
  let g := if req.maxTokens ≠ 0 then { g with maxOutputTokens := some req.maxTokens } else g
  if thinkingEnabled req.model then
    let budget : Int := 8192
    let g := { g with thinkingConfig := some { includeThoughts := true, thinkingBudget := budget } }
    let minMaxTokens := budget + 4096
    match g.maxOutputTokens with
    | none => { g with maxOutputTokens := some minMaxTokens }
    | some v => if v ≤ budget then { g with maxOutputTokens := some minMaxTokens } else g
  else g

/-- The tools block of transformRequest: forward only function tools,
grouped into a single declaration group when non-empty. -/
def buildTools (tools : List OAITool) : List GoogleTool :=
  if tools.length > 0 then
    let funcs := (tools.filter (fun t => t.type == "function")).map
      (fun t => ({ name := t.function.name
                   description := t.function.description
                   parameters := t.function.parameters } : GoogleFunctionDeclaration))
    if funcs.length > 0 then [{ functionDeclarations := funcs }] else []
  else []

/-- transformRequest.  The random envelope values (project pseudo-id,
request uuid, session id) enter as parameters. -/
def transformRequest (projectID requestUUID sessionID : String)
    (req : ChatCompletionRequest) : GoogleRequest :=
  let modelName := goTrimTrailing req.model "-thinking"
  let cs := transformMessages req.messages
  { project := projectID
    requestID := "agent-" ++ requestUUID
    model := modelName
    userAgent := "antigravity"
    request :=
      { contents := cs.1
        generationConfig := buildGenConfig req
        sessionID := sessionID
        systemInstruction := cs.2
        tools := buildTools req.tools } }

/-!
## Upstream SSE stream and response translation
-/

/-- Google usageMetadata. -/
structure GoogleUsage where
  promptTokenCount : Int
  candidatesTokenCount : Int
  totalTokenCount : Int
  deriving DecidableEq, Repr

/-- Google candidate. -/
structure GoogleCandidate where
  content : GoogleContent
  finishReason : String
  deriving DecidableEq, Repr

/-- The response element of one SSE data event. -/
structure GoogleResponseInner where
  candidates : List GoogleCandidate
  usageMetadata : Option GoogleUsage
  deriving DecidableEq, Repr

/-- One decoded SSE data event. -/
structure GoogleResponse where
  response : GoogleResponseInner
  deriving DecidableEq, Repr

/-- One scanned line of the upstream SSE body, after the decoding the
Go loop performs: a decoded data event, the terminal sentinel, or a
line the loop skips (no data marker, or JSON that fails to decode). -/
inductive StreamItem where
  | data (g : GoogleResponse)
  | done
  | junk
  deriving DecidableEq, Repr

/-- OpenAI response message; tool calls stay exactly as the handler
leaves them (the Go zero value is the nil slice). -/
structure RespMessage where
  role : String
  content : String
  reasoning : String
  toolCalls : List ToolCall
  deriving DecidableEq, Repr

/-- OpenAI response choice. -/
structure RespChoice where
  index : Int
  message : RespMessage
  finishReason : String
  deriving DecidableEq, Repr

/-- OpenAI usage block. -/
structure RespUsage where
  promptTokens : Int
  completionTokens : Int
  totalTokens : Int
  deriving DecidableEq, Repr

/-- OpenAI ChatCompletionResponse. -/
structure ChatCompletionResponse where
  id : String
  object : String
  created : Int
  model : String
  choices : List RespChoice
  usage : Option RespUsage
  deriving DecidableEq, Repr

/-- Streaming delta. -/
structure ChatDelta where
  role : String := ""
  content : String := ""
  reasoning : String := ""
  toolCalls : List ToolCall := []
  deriving DecidableEq, Repr

/-- Streaming chunk choice. -/
structure ChunkChoice where
  index : Int
  delta : ChatDelta
  finishReason : Option String
  deriving DecidableEq, Repr

/-- Streaming chunk. -/
structure ChatCompletionChunk where
  id : String
  object : String
  created : Int
  model : String
  choices : List ChunkChoice
  deriving DecidableEq, Repr

/-- Accumulator of the aggregation loop in handleNormalResponse. -/
structure AggState where
  content : String := ""
  reasoning : String := ""
  totalTokens : Int := 0
  inputTokens : Int := 0
  outputTokens : Int := 0
  deriving DecidableEq, Repr

/-- Effect of one decoded data event on the aggregation state: parts of
the first candidate with non-empty text extend reasoning or content,
then usage metadata overwrites the token counters when present. -/
def aggStep (st : AggState) (g : GoogleResponse) : AggState :=
  let st := match g.response.candidates with
    | [] => st
    | cand :: _ =>
      cand.content.parts.foldl
        (fun s p =>
          if p.text ≠ "" then
            if p.thought then { s with reasoning := s.reasoning ++ p.text }
            else { s with content := s.content ++ p.text }
          else s)
        st
  match g.response.usageMetadata with
  | some u =>
    { st with inputTokens := u.promptTokenCount
              outputTokens := u.candidatesTokenCount
              totalTokens := u.totalTokenCount }
  | none => st

/-- The scan loop of handleNormalResponse: stop at the sentinel, skip
junk, fold data events. -/
def aggregate (st : AggState) : List StreamItem → AggState
  | [] => st
  | .done :: _ => st
  | .junk :: rest => aggregate st rest
  | .data g :: rest => aggregate (aggStep st g) rest

/-- The inline account usage update both response handlers perform: a
nil usage record skips the whole update (and the save). -/
def proxyAccountUsageUpdate (totalTokens inputTokens outputTokens : Int)
    (a : Account) : Account :=
  match a.usage with
  | none => a
  | some u =>
    { a with usage := some { u with
        totalTokens := u.totalTokens + totalTokens
        inputTokens := u.inputTokens + inputTokens
        outputTokens := u.outputTokens + outputTokens
        requestCount := u.requestCount + 1 } }

/-- The think-block extractor of handleNormalResponse, character-exact:
the regexp finds the leftmost, shortest block delimited by the literal
think tags; the captured group is trimmed into reasoning and the whole
match is removed from the content, which is then trimmed.  Returns none
when there is no match, mirroring a nil FindStringSubmatch. -/
def extractThink (s : List Char) : Option (List Char × List Char) :=
  match findPat "<think>".data s with
  | none => none
  | some i =>
    match findPat "</think>".data (s.drop (i + 7)) with
    | none => none
    | some k =>
      let inner := (s.drop (i + 7)).take k
      let rest := (s.drop (i + 7)).drop (k + 8)
      some (goTrimSpace inner, goTrimSpace (s.take i ++ rest))

/-- True when the extractor would find a think block. -/
def hasThinkBlock (s : List Char) : Bool :=
  (extractThink s).isSome

/-- The content component after one run of the extractor (the content
is unchanged when there is no match, as in the Go fallback branch). -/
def extractContent (s : List Char) : List Char :=
  match extractThink s with
  | some p => p.2
  | none => s

/-- Everything handleNormalResponse leaves behind. -/
structure NormalResult where
  account : Account
  usageFile : String
  usageRecord : UsageRecord
  response : ChatCompletionResponse
  deriving DecidableEq, Repr

/-- handleNormalResponse: aggregate the stream, update both usage
sinks, apply the token-estimate fallback and the think-extraction
fallback, and build the aggregated OpenAI response.  today names the
current date, existing the parsed daily file when present, respUUID the
generated response uuid, createdAt the unix second of the response. -/
def handleNormalResponse (items : List StreamItem) (model : String) (a : Account)
    (today : String) (existing : Option UsageRecord)
    (respUUID : String) (createdAt : Int) : NormalResult :=
  let st := aggregate {} items
  let a2 := proxyAccountUsageUpdate st.totalTokens st.inputTokens st.outputTokens a
  let rec2 := UsageStore.recordUsage today a.accountID existing st.inputTokens st.outputTokens
  let estTotal : Int := Int.ofNat (st.content.utf8ByteSize / 4)
  let totalTokens := if st.totalTokens = 0 then estTotal else st.totalTokens
  let outputTokens := if st.totalTokens = 0 then estTotal else st.outputTokens
  let cr : String × String :=
    if st.reasoning = "" then
      match extractThink st.content.data with
      | some p => (String.mk p.2, String.mk p.1)
      | none => (st.content, st.reasoning)
    else (st.content, st.reasoning)
  { account := a2
    usageFile := usageFileName today a.accountID
    usageRecord := rec2
    response :=
      { id := "chatcmpl-" ++ respUUID
        object := "chat.completion"
        created := createdAt
        model := model
        choices :=
          [{ index := 0
             message :=
               { role := "assistant"
                 content := cr.1
                 reasoning := cr.2
                 toolCalls := [] }
             finishReason := "stop" }]
        usage := some
          { promptTokens := st.inputTokens
            completionTokens := outputTokens
            totalTokens := totalTokens } } }

/-- One emitted streaming chunk for one part: delta carries only the
part text. -/
def mkChunk (uuid model : String) (created : Int) (text : String) : ChatCompletionChunk :=
  { id := "chatcmpl-" ++ uuid
    object := "chat.completion.chunk"
    created := created
    model := model
    choices := [{ index := 0, delta := { content := text }, finishReason := none }] }

/-- The scan loop of handleStreamResponse.  The token triple is
(total, input, output) captured last-writer-wins; note that events with
no candidates are skipped before the usage capture, unlike in the
aggregated path.  uuids supplies the per-chunk uuid by emission index. -/
def streamLoopItems (model : String) (uuids : Nat → String) (created : Int) :
    List StreamItem → Int × Int × Int → Nat →
      List ChatCompletionChunk × (Int × Int × Int)
  | [], acc, _ => ([], acc)
  | .done :: _, acc, _ => ([], acc)
  | .junk :: rest, acc, k => streamLoopItems model uuids created rest acc k
  | .data g :: rest, acc, k =>
    match g.response.candidates with
    | [] => streamLoopItems model uuids created rest acc k
    | cand :: _ =>
      let acc := match g.response.usageMetadata with
        | some u => (u.totalTokenCount, u.promptTokenCount, u.candidatesTokenCount)
        | none => acc
      let chunks := cand.content.parts.enum.map
        (fun ip => mkChunk (uuids (k + ip.1)) model created ip.2.text)
      let res := streamLoopItems model uuids created rest acc (k + cand.content.parts.length)
      (chunks ++ res.1, res.2)

/-- Everything handleStreamResponse leaves behind (the trailing DONE
sentinel write is implicit). -/
structure StreamResult where
  chunks : List ChatCompletionChunk
  account : Account
  usageFile : String
  usageRecord : UsageRecord
  deriving DecidableEq, Repr

/-- handleStreamResponse: emit one chunk per part of the first
candidate of every decoded event, then update both usage sinks. -/
def handleStreamResponse (items : List StreamItem) (model : String) (a : Account)
    (today : String) (existing : Option UsageRecord)
    (uuids : Nat → String) (createdAt : Int) : StreamResult :=
  let r := streamLoopItems model uuids createdAt items (0, 0, 0) 0
  let tok := r.2
  { chunks := r.1
    account := proxyAccountUsageUpdate tok.1 tok.2.1 tok.2.2 a
    usageFile := usageFileName today a.accountID
    usageRecord := UsageStore.recordUsage today a.accountID existing tok.2.1 tok.2.2 }

/-!
## Proxy orchestrator (chatCompletions retry loop)
-/

/-- What the upstream call of one attempt produced. -/
inductive UpstreamResult where
  | transportError (err : String)
  | http (status : Nat) (body : String)
  deriving DecidableEq, Repr

/-- What one attempt observes: either GetToken failed, or an account
was acquired and the upstream call produced this result. -/
inductive AttemptInput where
  | acquireFail (err : String)
  | acquired (a : Account) (r : UpstreamResult)
  deriving Repr

/-- Outcome of one attempt body: continue the loop with a last error,
answer the caller directly with the upstream status and body, or
dispatch to a response handler.  saved is the account record written
back to the store by the attempt, when any. -/
inductive AttemptStep where
  | retry (lastErr : String) (saved : Option Account)
  | respond (status : Nat) (body : String) (saved : Option Account)
  | success (a : Account)
  deriving Repr

/-- The attempt body of chatCompletions: the outcome classifier. -/
def classifyAttempt (now nowMs : Int) : AttemptInput → AttemptStep
  | .acquireFail e => .retry e none
  | .acquired a (.transportError e) => .retry e (some (a.recordFailure now e))
  | .acquired a (.http status body) =>
    if status ≠ 200 then
      if status = 429 then
        .retry "rate limit exceeded" (some (a.recordRateLimit now))
      else if status = 403 then
        .retry "permission denied" (some (a.recordPermissionDenied now))
      else
        let msg := "HTTP " ++ toString status ++ ": " ++ body
        let a2 := a.recordFailure now msg
        if 400 ≤ status ∧ status < 500 then .respond status body (some a2)
        else .retry msg (some a2)
    else .success (a.recordSuccess nowMs)

/-- What the caller of chatCompletions finally receives. -/
inductive ChatResult where
  | completed (a : Account)
  | passthrough (status : Nat) (body : String)
  | unavailable (details : Option String) (retries : Nat)
  deriving Repr

/-- The retry loop of chatCompletions with its fixed budget of 5
attempts; when the budget runs out the caller gets a 503 carrying the
last recorded reason and the attempt count. -/
def chatLoop (now nowMs : Int) (inputs : Nat → AttemptInput) :
    Nat → Nat → Option String → ChatResult
  | 0, _, lastErr => .unavailable lastErr 5
  | fuel + 1, attempt, _lastErr =>
    match classifyAttempt now nowMs (inputs attempt) with
    | .retry e _ => chatLoop now nowMs inputs fuel (attempt + 1) (some e)
    | .respond s b _ => .passthrough s b
    | .success a => .completed a

/-- chatCompletions entry point over the per-attempt environment. -/
def chatCompletions (now nowMs : Int) (inputs : Nat → AttemptInput) : ChatResult :=
  chatLoop now nowMs inputs 5 0 none

/-!
## Claims
-/

/-- C6: the first recorded 429 sets the rate-limit backoff to 120
seconds; each further 429 recorded without an intervening success
doubles it with a cap of 1800 seconds, and failedUntil becomes now plus
the new backoff; recording a success resets both the backoff and the
rate-limit counter to 0. -/
theorem rateLimitBackoffLaw (now nowMs : Int) (a : Account) :
    (a.curRateLimitBackoff = 0 →
      (a.recordRateLimit now).curRateLimitBackoff = 120 ∧
      (a.recordRateLimit now).curFailedUntil = some (now + 120)) ∧
    (0 < a.curRateLimitBackoff →
      (a.recordRateLimit now).curRateLimitBackoff = min (2 * a.curRateLimitBackoff) 1800 ∧
      (a.recordRateLimit now).curFailedUntil =
        some (now + min (2 * a.curRateLimitBackoff) 1800)) ∧
    (a.recordSuccess nowMs).curRateLimitBackoff = 0 ∧
    (a.recordSuccess nowMs).curRateLimitCount = 0 := by
  unfold Account.recordRateLimit Account.recordSuccess Account.curRateLimitBackoff
    Account.curRateLimitCount Account.curFailedUntil
  refine ⟨?_, ?_, ?_, ?_⟩
  · intro h
    simp only [Option.getD_some, h]
    norm_num
  · intro h
    simp only [Option.getD_some]
    split_ifs with h1 h2 h2 <;> simp only [Option.some.injEq] <;> omega
  · rfl
  · rfl

/-- C6 witness: concrete runs of the three laws from a fresh account at
now = 50. -/
theorem rateLimitBackoffLaw_witness :
    (Account.recordRateLimit 50 freshAccount).curRateLimitBackoff = 120 ∧
    (Account.recordRateLimit 60 (Account.recordRateLimit 50 freshAccount)).curFailedUntil =
      some (60 + min (2 * 120) 1800) := by
  have h1 := (rateLimitBackoffLaw 50 0 freshAccount).1 (by decide)
  have h2 := ((rateLimitBackoffLaw 60 0 (Account.recordRateLimit 50 freshAccount)).2.1
    (by decide))
  exact ⟨h1.1, by rw [h2.2]; decide⟩

/-- C7: the claimed sequence min of 2 to the k and 3600 holds for the
first failures (2, then 2048 at k = 11, then the 3600 cap at k = 12),
but the 63rd consecutive failure overflows the Go int64 shift and sets
failedUntil to now minus 2 to the 63, a cooldown in the distant past
instead of the documented one-hour cap. -/
theorem failureBackoffOverflow :
    (((fun a => Account.recordFailure 0 "refresh failed" a)^[1] freshAccount).curFailedUntil
      = some 2) ∧
    (((fun a => Account.recordFailure 0 "refresh failed" a)^[11] freshAccount).curFailedUntil
      = some 2048) ∧
    (((fun a => Account.recordFailure 0 "refresh failed" a)^[12] freshAccount).curFailedUntil
      = some 3600) ∧
    (((fun a => Account.recordFailure 0 "refresh failed" a)^[63] freshAccount).curFailedUntil
      = some (-9223372036854775808)) := by
  refine ⟨?_, ?_, ?_, ?_⟩ <;> decide

/-- A successful refresh does not change the enable flag. -/
theorem refreshApply_enable (now nowMs : Int) (d : RefreshData) (a : Account) :
    (refreshApply now nowMs d a).enable = a.enable := by
  unfold refreshApply Account.recordSuccess
  cases d.models <;> by_cases h : d.refreshToken = "" <;> simp [h]

/-- A successful refresh ends with RecordSuccess, which clears the
cooldown deadline. -/
theorem refreshApply_notInCooldown (now nowMs tnow : Int) (d : RefreshData) (a : Account) :
    (refreshApply now nowMs d a).isInCooldown tnow = false := by
  unfold refreshApply Account.recordSuccess Account.isInCooldown
  cases d.models <;> by_cases h : d.refreshToken = "" <;> simp [h]

/-- Any account the rotation loop returns is enabled and out of
cooldown. -/
theorem getTokenLoop_sound (store : List (Option Account))
    (rd : Nat → Option RefreshData) (now nowMs : Int) :
    ∀ fuel idx a, getTokenLoop store rd now nowMs fuel idx = some a →
      a.enable = true ∧ a.isInCooldown now = false := by
  intro fuel
  induction fuel with
  | zero =>
    intro idx a h
    simp [getTokenLoop] at h
  | succ n ih =>
    intro idx a h
    simp only [getTokenLoop] at h
    split at h
    · exact ih _ _ h
    · rename_i b
      split at h
      · exact ih _ _ h
      · rename_i h1
        split at h
        · exact ih _ _ h
        · rename_i h2
          split at h
          · split at h
            · exact ih _ _ h
            · cases h
              exact ⟨by rw [refreshApply_enable]; simpa using h1,
                     refreshApply_notInCooldown _ _ _ _ _⟩
          · cases h
            exact ⟨by simpa using h1, by simpa using h2⟩

/-- C5: GetToken never hands out a disabled account nor one whose
failedUntil lies in the future; an empty store fails with the
no-accounts error, and a fruitless full walk fails with the
no-usable-account error. -/
theorem getTokenSelection (store : List (Option Account))
    (rd : Nat → Option RefreshData) (now nowMs : Int) (cursor : Nat) :
    (store = [] → getToken store rd now nowMs cursor = .error .noAccounts) ∧
    (∀ a, getToken store rd now nowMs cursor = .ok a →
      a.enable = true ∧ a.isInCooldown now = false) ∧
    (∀ e, getToken store rd now nowMs cursor = .error e →
      (store = [] ∧ e = .noAccounts) ∨ (store ≠ [] ∧ e = .noUsableAccount)) := by
  refine ⟨?_, ?_, ?_⟩
  · intro h
    subst h
    rfl
  · intro a h
    unfold getToken at h
    split_ifs at h with hlen
    cases hloop : getTokenLoop store rd now nowMs store.length cursor with
    | none => rw [hloop] at h; cases h
    | some b =>
      rw [hloop] at h
      cases h
      exact getTokenLoop_sound store rd now nowMs _ _ _ hloop
  · intro e h
    unfold getToken at h
    split_ifs at h with hlen
    · left
      exact ⟨List.length_eq_zero.mp hlen, by cases h; rfl⟩
    · right
      refine ⟨fun hnil => hlen (by simp [hnil]), ?_⟩
      cases hloop : getTokenLoop store rd now nowMs store.length cursor with
      | none => rw [hloop] at h; cases h; rfl
      | some b => rw [hloop] at h; cases h

/-- C5 witness: a one-account store with a healthy account yields that
account; the empty store yields the no-accounts error. -/
theorem getTokenSelection_witness :
    (freshAccount.enable = true ∧ freshAccount.isInCooldown 1700000000 = false) ∧
    getToken [] (fun _ => none) 1700000000 1700000000000 0 = .error .noAccounts :=
  ⟨(getTokenSelection [some freshAccount] (fun _ => none) 1700000000 1700000000000 0).2.1
      freshAccount (by rfl),
   (getTokenSelection [] (fun _ => none) 1700000000 1700000000000 0).1 rfl⟩

set_option maxHeartbeats 1000000 in
/-- The thinking override of the generation config: thinking config set
to include thoughts with the 8192 budget, and a missing or too-small
caller max-output-tokens raised to budget plus 4096. -/
theorem buildGenConfig_thinking (req : ChatCompletionRequest)
    (h : thinkingEnabled req.model = true) :
    (buildGenConfig req).thinkingConfig =
      some { includeThoughts := true, thinkingBudget := 8192 } ∧
    ((req.maxTokens = 0 ∨ req.maxTokens ≤ 8192) →
      (buildGenConfig req).maxOutputTokens = some 12288) := by
  unfold buildGenConfig
  rw [h]
  simp only [if_true]
  split_ifs with h1 h2 h3 h4 <;>
    refine ⟨?_, fun hx => ?_⟩ <;>
    simp <;>
    split_ifs <;>
    simp_all

/-- C8: a model name ending in the thinking suffix has the suffix
stripped from the vendor model name and enables thinking; with thinking
enabled the generation config carries includeThoughts true and a
thinking budget of 8192, and a caller max-output-tokens that is absent
(zero) or at most 8192 is replaced by 12288. -/
theorem thinkingTransform (projectID requestUUID sessionID : String)
    (req : ChatCompletionRequest) :
    (goHasSuffix req.model "-thinking" = true →
      (transformRequest projectID requestUUID sessionID req).model =
        String.mk (req.model.data.take (req.model.data.length - 9)) ∧
      thinkingEnabled req.model = true) ∧
    (thinkingEnabled req.model = true →
      (transformRequest projectID requestUUID sessionID
          req).request.generationConfig.thinkingConfig =
        some { includeThoughts := true, thinkingBudget := 8192 } ∧
      ((req.maxTokens = 0 ∨ req.maxTokens ≤ 8192) →
        (transformRequest projectID requestUUID sessionID
            req).request.generationConfig.maxOutputTokens = some 12288)) := by
  constructor
  · intro h
    refine ⟨?_, ?_⟩
    · show goTrimTrailing req.model "-thinking" =
        String.mk (req.model.data.take (req.model.data.length - 9))
      unfold goTrimTrailing
      rw [if_pos h]
      rfl
    · unfold thinkingEnabled
      rw [h]
      rfl
  · intro h
    have hb := buildGenConfig_thinking req h
    exact ⟨hb.1, hb.2⟩

/-- C8 witness: the thinking-suffixed flash model with no caller token
limit. -/
theorem thinkingTransform_witness :
    (transformRequest "proj" "u1" "-7"
        { model := "gemini-2.0-flash-thinking", messages := [], stream := false,
          maxTokens := 0, temperature := 0, topP := 0, topK := 0,
          tools := [] }).model = "gemini-2.0-flash" ∧
    (transformRequest "proj" "u1" "-7"
        { model := "gemini-2.0-flash-thinking", messages := [], stream := false,
          maxTokens := 0, temperature := 0, topP := 0, topK := 0,
          tools := [] }).request.generationConfig.maxOutputTokens = some 12288 := by
  have ht := thinkingTransform "proj" "u1" "-7"
    { model := "gemini-2.0-flash-thinking", messages := [], stream := false,
      maxTokens := 0, temperature := 0, topP := 0, topK := 0, tools := [] }
  refine ⟨?_, (ht.2 (by decide)).2 (Or.inl rfl)⟩
  rw [(ht.1 (by decide)).1]
  decide

/-- A Boolean list prefix is no longer than the list. -/
theorem isPrefixOf_len_le {p l : List Char} (h : p.isPrefixOf l = true) :
    p.length ≤ l.length := by
  induction p generalizing l with
  | nil => simp
  | cons a as ih =>
    cases l with
    | nil => simp [List.isPrefixOf] at h
    | cons b bs =>
      simp only [List.isPrefixOf, Bool.and_eq_true] at h
      simpa using ih h.2

/-- findPat finds a real occurrence: the pattern is a prefix of the
tail starting at the returned index. -/
theorem findPat_at {pat : List Char} : ∀ {s : List Char} {i : Nat},
    findPat pat s = some i → pat.isPrefixOf (s.drop i) = true := by
  intro s
  induction s with
  | nil =>
    intro i h
    unfold findPat at h
    split_ifs at h with he
    · cases h
      simpa [List.isPrefixOf_iff_prefix] using List.isEmpty_iff.mp he
  | cons c rest ih =>
    intro i h
    unfold findPat at h
    split_ifs at h with hp
    · cases h
      exact hp
    · cases hj : findPat pat rest with
      | none => rw [hj] at h; cases h
      | some j =>
        rw [hj] at h
        cases h
        simpa using ih hj

/-- Trimming never lengthens a list. -/
theorem goTrimSpace_len_le (s : List Char) : (goTrimSpace s).length ≤ s.length := by
  unfold goTrimSpace
  calc ((s.dropWhile Char.isWhitespace).reverse.dropWhile Char.isWhitespace).reverse.length
      = ((s.dropWhile Char.isWhitespace).reverse.dropWhile Char.isWhitespace).length := by
        rw [List.length_reverse]
    _ ≤ (s.dropWhile Char.isWhitespace).reverse.length :=
        (List.dropWhile_suffix _).length_le
    _ = (s.dropWhile Char.isWhitespace).length := by rw [List.length_reverse]
    _ ≤ s.length := (List.dropWhile_suffix _).length_le

/-- A successful extraction strictly shrinks the content: the removed
match is at least the 15 characters of the two tags. -/
theorem extractThink_shrinks {s r c : List Char} (h : extractThink s = some (r, c)) :
    c.length < s.length := by
  unfold extractThink at h
  cases hi : findPat "<think>".data s with
  | none =>
    simp only [hi] at h
    cases h
  | some i =>
    simp only [hi] at h
    cases hk : findPat "</think>".data (s.drop (i + 7)) with
    | none =>
      simp only [hk] at h
      cases h
    | some k =>
      simp only [hk, Option.some.injEq, Prod.mk.injEq] at h
      obtain ⟨hr, hc⟩ := h
      subst hc
      have h7 : ("<think>".data).length ≤ (s.drop i).length := isPrefixOf_len_le (findPat_at hi)
      have h8 : ("</think>".data).length ≤ ((s.drop (i + 7)).drop k).length :=
        isPrefixOf_len_le (findPat_at hk)
      rw [List.length_drop] at h7
      rw [List.length_drop, List.length_drop] at h8
      have h7n : (7 : Nat) ≤ s.length - i := by simpa using h7
      have h8n : (8 : Nat) ≤ s.length - (i + 7) - k := by simpa using h8
      calc (goTrimSpace (s.take i ++ (s.drop (i + 7)).drop (k + 8))).length
          ≤ (s.take i ++ (s.drop (i + 7)).drop (k + 8)).length := goTrimSpace_len_le _
        _ = (s.take i).length + ((s.drop (i + 7)).drop (k + 8)).length := List.length_append ..
        _ < s.length := by
            rw [List.length_take, List.length_drop, List.length_drop]
            omega

/-- C9 (amended): running the extractor on its own output makes no
further change exactly when that output no longer contains a think
block; when a block survives (possible when the input held several),
the second run extracts it and the content changes again. -/
theorem extractorIdemIff (s : List Char) :
    (hasThinkBlock (extractContent s) = false →
      extractContent (extractContent s) = extractContent s) ∧
    (hasThinkBlock (extractContent s) = true →
      extractContent (extractContent s) ≠ extractContent s) := by
  constructor
  · intro h
    unfold hasThinkBlock at h
    generalize hgen : extractContent s = t at h ⊢
    cases he : extractThink t with
    | none =>
      unfold extractContent
      simp only [he]
    | some p => rw [he] at h; cases h
  · intro h
    unfold hasThinkBlock at h
    generalize hgen : extractContent s = t at h ⊢
    cases he : extractThink t with
    | none => rw [he] at h; cases h
    | some p =>
      have hp2 : extractContent t = p.2 := by
        unfold extractContent
        simp only [he]
      have hlt : p.2.length < t.length := extractThink_shrinks (by rw [he])
      intro heq
      rw [hp2] at heq
      rw [heq] at hlt
      exact lt_irrefl _ hlt

/-- C9 witness: one block input, whose output final has no further
block. -/
theorem extractorIdemIff_witness :
    extractContent (extractContent "<think>r</think>final".data) =
      extractContent "<think>r</think>final".data :=
  (extractorIdemIff "<think>r</think>final".data).1 (by decide)

/-- C9 counterexample: with two think blocks the first extraction
leaves the second block in the content, so a second extraction changes
it again, refuting idempotence of the extractor as claimed. -/
theorem extractorIdem_cex :
    extractContent (extractContent "<think>a</think><think>b</think>".data) ≠
      extractContent "<think>a</think><think>b</think>".data := by
  decide

/-- Number of function-call parts carried by the data events of a
stream (up to the terminal sentinel), the quantity the tool-call claim
is measured against. -/
def functionCallPartCount : List StreamItem → Nat
  | [] => 0
  | .done :: _ => 0
  | .junk :: rest => functionCallPartCount rest
  | .data g :: rest =>
    (g.response.candidates.map
      (fun c => (c.content.parts.filter (fun p => p.functionCall.isSome)).length)).sum
      + functionCallPartCount rest

/-- C1 (amended): the aggregated response path ignores function-call
parts entirely; the emitted message always carries an empty tool-call
list, whatever the upstream stream contained. -/
theorem aggNoToolCalls (items : List StreamItem) (model : String) (a : Account)
    (today : String) (existing : Option UsageRecord) (respUUID : String)
    (createdAt : Int) :
    (handleNormalResponse items model a today existing respUUID createdAt).response.choices.map
      (fun ch => ch.message.toolCalls) = [[]] := rfl

/-- C1 counterexample: a stream with exactly one function-call part
yields a response whose tool-call list is empty rather than having one
converted entry, refuting the claimed accumulation. -/
theorem aggToolCalls_cex :
    ¬ ((handleNormalResponse
        [.data ⟨⟨[⟨⟨"model",
            [{ functionCall := some ⟨"call_1", "get_weather", [("city", "Paris")]⟩ }]⟩,
          "STOP"⟩], none⟩⟩]
        "m" freshAccount "2026-10-11" none "u1" 0).response.choices.map
          (fun ch => ch.message.toolCalls.length) =
      [functionCallPartCount
        [.data ⟨⟨[⟨⟨"model",
            [{ functionCall := some ⟨"call_1", "get_weather", [("city", "Paris")]⟩ }]⟩,
          "STOP"⟩], none⟩⟩]]) := by
  decide

/-- C2 (amended): on a successful completion the inline account sink
adds the captured token totals and bumps the request count only when a
usage record exists (a nil record skips the inline update), and it
never touches last-used; the daily sink loads or creates the dated file
record and adds input, output, total and request count. -/
theorem usageSinksUpdate (items : List StreamItem) (model : String) (a : Account)
    (today acct : String) (existing : Option UsageRecord) (respUUID : String)
    (createdAt : Int) (u : UsageStats) (r : UsageRecord) (inTok outTok : Int) :
    (a.usage = some u →
      (handleNormalResponse items model a today existing respUUID createdAt).account.usage =
        some { totalTokens := u.totalTokens + (aggregate {} items).totalTokens
               inputTokens := u.inputTokens + (aggregate {} items).inputTokens
               outputTokens := u.outputTokens + (aggregate {} items).outputTokens
               requestCount := u.requestCount + 1
               lastUsed := u.lastUsed }) ∧
    (a.usage = none →
      (handleNormalResponse items model a today existing respUUID createdAt).account = a) ∧
    (handleNormalResponse items model a today existing respUUID createdAt).usageFile =
      usageFileName today a.accountID ∧
    (handleNormalResponse items model a today existing respUUID createdAt).usageRecord =
      UsageStore.recordUsage today a.accountID existing
        (aggregate {} items).inputTokens (aggregate {} items).outputTokens ∧
    UsageStore.recordUsage today acct (some r) inTok outTok =
      { r with inputTokens := r.inputTokens + inTok
               outputTokens := r.outputTokens + outTok
               totalTokens := r.totalTokens + inTok + outTok
               requestCount := r.requestCount + 1 } ∧
    UsageStore.recordUsage today acct none inTok outTok =
      { date := today, accountID := acct, totalTokens := inTok + outTok,
        inputTokens := inTok, outputTokens := outTok, requestCount := 1 } := by
  refine ⟨?_, ?_, rfl, rfl, rfl, ?_⟩
  · intro h
    unfold handleNormalResponse proxyAccountUsageUpdate
    rw [h]
  · intro h
    unfold handleNormalResponse proxyAccountUsageUpdate
    rw [h]
  · unfold UsageStore.recordUsage
    simp only []
    norm_num

/-- C2 witness: an account with an existing usage record keeps its
last-used stamp and gains the (zero) captured totals of an empty
stream. -/
theorem usageSinksUpdate_witness :
    (handleNormalResponse [] "m"
        { freshAccount with usage := some ⟨3, 1, 2, 4, some 5⟩ }
        "2026-10-11" none "u1" 0).account.usage =
      some { totalTokens := 3 + (aggregate {} []).totalTokens
             inputTokens := 1 + (aggregate {} []).inputTokens
             outputTokens := 2 + (aggregate {} []).outputTokens
             requestCount := 4 + 1
             lastUsed := some 5 } :=
  (usageSinksUpdate [] "m" { freshAccount with usage := some ⟨3, 1, 2, 4, some 5⟩ }
    "2026-10-11" "x" none "u1" 0 ⟨3, 1, 2, 4, some 5⟩ ⟨"", "", 0, 0, 0, 0⟩ 0 0).1 rfl

/-- C2 counterexample: a successful aggregated completion at wall-clock
millisecond 1760140800000 leaves last-used untouched (still none), while
the claim requires it to be set to the current time. -/
theorem usageSinksLastUsed_cex :
    (handleNormalResponse [] "m" { freshAccount with usage := some ⟨0, 0, 0, 0, none⟩ }
        "2026-10-11" none "u1" 1760140800).account.usage.map (fun u => u.lastUsed) =
      some none ∧
    ¬ ((handleNormalResponse [] "m" { freshAccount with usage := some ⟨0, 0, 0, 0, none⟩ }
        "2026-10-11" none "u1" 1760140800).account.usage.map (fun u => u.lastUsed) =
      some (some 1760140800000)) := by
  constructor <;> decide

/-- The token-sum invariant of the spec, on the optional usage record
as the Go code stores it. -/
def usageInvB (a : Account) : Bool :=
  match a.usage with
  | none => true
  | some u => u.totalTokens == u.inputTokens + u.outputTokens

/-- C3 (amended): Account.RecordUsage preserves the token-sum
invariant; the proxy-path inline update adds the upstream-reported
totals verbatim and therefore preserves the invariant exactly when the
reported total equals input plus output. -/
theorem usageTotalInvariant (a : Account) (nowMs inTok outTok tot : Int)
    (items : List StreamItem) (model today : String) (existing : Option UsageRecord)
    (respUUID : String) (createdAt : Int) :
    (usageInvB a = true → usageInvB (a.recordUsage nowMs inTok outTok) = true) ∧
    (usageInvB a = true → tot = inTok + outTok →
      usageInvB (proxyAccountUsageUpdate tot inTok outTok a) = true) ∧
    (usageInvB a = true →
      (aggregate {} items).totalTokens =
        (aggregate {} items).inputTokens + (aggregate {} items).outputTokens →
      usageInvB (handleNormalResponse items model a today existing
        respUUID createdAt).account = true) := by
  refine ⟨?_, ?_, ?_⟩
  · intro h
    unfold usageInvB Account.recordUsage at *
    cases hu : a.usage with
    | none =>
      simp only [hu, Option.getD_none, beq_iff_eq]
      omega
    | some u =>
      simp only [hu, Option.getD_some, beq_iff_eq] at h ⊢
      omega
  · intro h ht
    unfold usageInvB proxyAccountUsageUpdate at *
    cases hu : a.usage with
    | none => simp only [hu]
    | some u =>
      simp only [hu, beq_iff_eq] at h ⊢
      omega
  · intro h ht
    unfold handleNormalResponse
    unfold usageInvB proxyAccountUsageUpdate at *
    cases hu : a.usage with
    | none => simp only [hu]
    | some u =>
      simp only [hu, beq_iff_eq] at h ⊢
      omega

/-- C3 witness: RecordUsage keeps the invariant on a zeroed record, and
the proxy update keeps it when the reported total is consistent. -/
theorem usageTotalInvariant_witness :
    usageInvB ((({ freshAccount with usage := some ⟨0, 0, 0, 0, none⟩ } :
      Account).recordUsage 7 1 2)) = true ∧
    usageInvB (proxyAccountUsageUpdate 3 1 2
      { freshAccount with usage := some ⟨0, 0, 0, 0, none⟩ }) = true :=
  ⟨(usageTotalInvariant { freshAccount with usage := some ⟨0, 0, 0, 0, none⟩ }
      7 1 2 3 [] "m" "2026-10-11" none "u1" 0).1 (by decide),
   (usageTotalInvariant { freshAccount with usage := some ⟨0, 0, 0, 0, none⟩ }
      7 1 2 3 [] "m" "2026-10-11" none "u1" 0).2.1 (by decide) (by decide)⟩

/-- C3 counterexample: one aggregated completion whose upstream usage
metadata reports prompt 1, candidates 2, total 5 (as happens when
thought tokens are counted) breaks the invariant on the account
record. -/
theorem usageTotalInvariant_cex :
    usageInvB (handleNormalResponse
      [.data ⟨⟨[⟨⟨"model", [{ text := "hi" }]⟩, "STOP"⟩], some ⟨1, 2, 5⟩⟩⟩]
      "m" { freshAccount with usage := some ⟨0, 0, 0, 0, none⟩ }
      "2026-10-11" none "u1" 0).account = false := by
  decide

/-- C4: attempt outcomes are classified as the spec says: 429 records a
rate limit and retries, 403 records the permission denial (disabling
the account) and retries, any other 4xx records a generic failure and
answers the caller with the upstream status and body without retrying,
5xx and transport errors record a generic failure and retry, and five
retryable attempts end in the 503 result carrying the last reason and
the attempt count. -/
theorem attemptClassification (now nowMs : Int) (a : Account) (body e : String)
    (status : Nat) (inputs : Nat → AttemptInput) :
    (classifyAttempt now nowMs (.acquired a (.http 429 body)) =
      .retry "rate limit exceeded" (some (a.recordRateLimit now))) ∧
    (classifyAttempt now nowMs (.acquired a (.http 403 body)) =
      .retry "permission denied" (some (a.recordPermissionDenied now)) ∧
      (a.recordPermissionDenied now).enable = false) ∧
    (400 ≤ status → status < 500 → status ≠ 429 → status ≠ 403 →
      classifyAttempt now nowMs (.acquired a (.http status body)) =
        .respond status body
          (some (a.recordFailure now ("HTTP " ++ toString status ++ ": " ++ body)))) ∧
    (500 ≤ status →
      classifyAttempt now nowMs (.acquired a (.http status body)) =
        .retry ("HTTP " ++ toString status ++ ": " ++ body)
          (some (a.recordFailure now ("HTTP " ++ toString status ++ ": " ++ body)))) ∧
    (classifyAttempt now nowMs (.acquired a (.transportError e)) =
      .retry e (some (a.recordFailure now e))) ∧
    (∀ m0 a0 m1 a1 m2 a2 m3 a3 m4 a4,
      classifyAttempt now nowMs (inputs 0) = .retry m0 a0 →
      classifyAttempt now nowMs (inputs 1) = .retry m1 a1 →
      classifyAttempt now nowMs (inputs 2) = .retry m2 a2 →
      classifyAttempt now nowMs (inputs 3) = .retry m3 a3 →
      classifyAttempt now nowMs (inputs 4) = .retry m4 a4 →
      chatCompletions now nowMs inputs = .unavailable (some m4) 5) := by
  have hstep : ∀ (fuel attempt : Nat) (le : Option String) (msg : String)
      (acc : Option Account),
      classifyAttempt now nowMs (inputs attempt) = .retry msg acc →
      chatLoop now nowMs inputs (fuel + 1) attempt le =
        chatLoop now nowMs inputs fuel (attempt + 1) (some msg) := by
    intro fuel attempt le msg acc h
    conv_lhs => unfold chatLoop
    rw [h]
  refine ⟨rfl, ⟨rfl, rfl⟩, ?_, ?_, rfl, ?_⟩
  · intro h1 h2 h3 h4
    simp only [classifyAttempt]
    split_ifs <;> first | rfl | omega
  · intro h1
    simp only [classifyAttempt]
    split_ifs <;> first | rfl | omega
  · intro m0 a0 m1 a1 m2 a2 m3 a3 m4 a4 h0 h1 h2 h3 h4
    have e0 : chatCompletions now nowMs inputs =
        chatLoop now nowMs inputs (4 + 1) 0 none := rfl
    rw [e0, hstep 4 0 none m0 a0 h0]
    have e1 : chatLoop now nowMs inputs 4 1 (some m0) =
        chatLoop now nowMs inputs (3 + 1) 1 (some m0) := rfl
    rw [e1, hstep 3 1 (some m0) m1 a1 h1]
    have e2 : chatLoop now nowMs inputs 3 2 (some m1) =
        chatLoop now nowMs inputs (2 + 1) 2 (some m1) := rfl
    rw [e2, hstep 2 2 (some m1) m2 a2 h2]
    have e3 : chatLoop now nowMs inputs 2 3 (some m2) =
        chatLoop now nowMs inputs (1 + 1) 3 (some m2) := rfl
    rw [e3, hstep 1 3 (some m2) m3 a3 h3]
    have e4 : chatLoop now nowMs inputs 1 4 (some m3) =
        chatLoop now nowMs inputs (0 + 1) 4 (some m3) := rfl
    rw [e4, hstep 0 4 (some m3) m4 a4 h4]
    rfl

/-- C4 witness: a 404 passthrough, a 429 retry, and a full five-attempt
exhaustion with an empty pool. -/
theorem attemptClassification_witness :
    classifyAttempt 0 0 (.acquired freshAccount (.http 429 "nope")) =
      .retry "rate limit exceeded" (some (freshAccount.recordRateLimit 0)) ∧
    classifyAttempt 0 0 (.acquired freshAccount (.http 404 "nope")) =
      .respond 404 "nope"
        (some (freshAccount.recordFailure 0 ("HTTP " ++ toString 404 ++ ": " ++ "nope"))) ∧
    chatCompletions 0 0 (fun _ => .acquireFail "no accounts available") =
      .unavailable (some "no accounts available") 5 := by
  have h := attemptClassification 0 0 freshAccount "nope" "err" 404
    (fun _ => .acquireFail "no accounts available")
  exact ⟨h.1,
    h.2.2.1 (by decide) (by decide) (by decide) (by decide),
    h.2.2.2.2.2 "no accounts available" none "no accounts available" none
      "no accounts available" none "no accounts available" none
      "no accounts available" none rfl rfl rfl rfl rfl⟩

/-- The parts the streaming loop walks: the parts of the first
candidate of every decoded event before the sentinel; events without
candidates contribute nothing. -/
def streamVisibleParts : List StreamItem → List GooglePart
  | [] => []
  | .done :: _ => []
  | .junk :: rest => streamVisibleParts rest
  | .data g :: rest =>
    match g.response.candidates with
    | [] => streamVisibleParts rest
    | cand :: _ => cand.content.parts ++ streamVisibleParts rest

/-- Rewrite every thought flag in a stream by an arbitrary rule,
leaving texts, usage and structure alone. -/
def setThought (f : GooglePart → Bool) (items : List StreamItem) : List StreamItem :=
  items.map fun it =>
    match it with
    | .data g => .data ⟨⟨g.response.candidates.map (fun c =>
        ⟨⟨c.content.role, c.content.parts.map (fun p => { p with thought := f p })⟩,
          c.finishReason⟩), g.response.usageMetadata⟩⟩
    | .done => .done
    | .junk => .junk

/-- The streamed delta contents are exactly the visible part texts. -/
theorem streamLoop_contents (model : String) (uuids : Nat → String) (created : Int) :
    ∀ (items : List StreamItem) (acc : Int × Int × Int) (k : Nat),
      (streamLoopItems model uuids created items acc k).1.map
        (fun ch => ch.choices.map (fun c => c.delta.content)) =
      (streamVisibleParts items).map (fun p => [p.text]) := by
  intro items
  induction items with
  | nil => intro acc k; rfl
  | cons it rest ih =>
    intro acc k
    cases it with
    | done => rfl
    | junk => exact ih _ _
    | data g =>
      cases hc : g.response.candidates with
      | nil =>
        simp only [streamLoopItems, streamVisibleParts, hc]
        exact ih _ _
      | cons cand cs =>
        simp only [streamLoopItems, streamVisibleParts, hc]
        rw [List.map_append, List.map_append]
        congr 1
        · calc (cand.content.parts.enum.map fun ip =>
                  mkChunk (uuids (k + ip.1)) model created ip.2.text).map
                (fun ch => ch.choices.map (fun c => c.delta.content))
              = cand.content.parts.enum.map (fun ip => [ip.2.text]) := by
                rw [List.map_map]; rfl
            _ = (cand.content.parts.enum.map Prod.snd).map (fun p => [p.text]) := by
                rw [List.map_map]; rfl
            _ = cand.content.parts.map (fun p => [p.text]) := by rw [List.enum_map_snd]
        · exact ih _ _

/-- Every streamed chunk has exactly one choice, whose delta carries no
role, no reasoning and no tool calls. -/
theorem streamLoop_deltaShape (model : String) (uuids : Nat → String) (created : Int) :
    ∀ (items : List StreamItem) (acc : Int × Int × Int) (k : Nat) (ch : ChatCompletionChunk),
      ch ∈ (streamLoopItems model uuids created items acc k).1 →
      ch.choices.map (fun c => (c.delta.role, c.delta.reasoning, c.delta.toolCalls)) =
        [("", "", ([] : List ToolCall))] := by
  intro items
  induction items with
  | nil => intro acc k ch h; cases h
  | cons it rest ih =>
    intro acc k ch h
    cases it with
    | done => cases h
    | junk => exact ih _ _ _ h
    | data g =>
      cases hc : g.response.candidates with
      | nil =>
        simp only [streamLoopItems, hc] at h
        exact ih _ _ _ h
      | cons cand cs =>
        simp only [streamLoopItems, hc, List.mem_append] at h
        rcases h with h | h
        · rcases List.mem_map.mp h with ⟨ip, _, rfl⟩
          rfl
        · exact ih _ _ _ h

/-- The emitted chunks are invariant under any rewrite of the thought
flags: a thought part is streamed exactly like a plain one. -/
theorem streamLoop_thought (model : String) (uuids : Nat → String) (created : Int)
    (f : GooglePart → Bool) :
    ∀ (items : List StreamItem) (acc : Int × Int × Int) (k : Nat),
      (streamLoopItems model uuids created (setThought f items) acc k).1 =
      (streamLoopItems model uuids created items acc k).1 := by
  intro items
  induction items with
  | nil => intro acc k; rfl
  | cons it rest ih =>
    intro acc k
    cases it with
    | done => rfl
    | junk =>
      simp only [setThought, List.map_cons] at *
      exact ih _ _
    | data g =>
      cases hc : g.response.candidates with
      | nil =>
        simp only [setThought, List.map_cons, streamLoopItems, hc, List.map_nil] at *
        exact ih _ _
      | cons cand cs =>
        simp only [setThought, List.map_cons, streamLoopItems, hc, List.map_cons] at *
        rw [List.enum_map]
        rw [List.map_map, List.length_map]
        congr 1
        exact ih _ _

/-- C10: in streaming mode every part text, thought or not, is emitted
verbatim as the delta content of its own chunk; deltas never carry a
reasoning field or tool calls, and rewriting the thought flags changes
nothing, so the think extraction never runs on this path. -/
theorem streamThoughtHandling (items : List StreamItem) (model : String) (a : Account)
    (today : String) (existing : Option UsageRecord) (uuids : Nat → String)
    (createdAt : Int) (f : GooglePart → Bool) :
    ((handleStreamResponse items model a today existing uuids createdAt).chunks.map
      (fun ch => ch.choices.map (fun c => c.delta.content))) =
      (streamVisibleParts items).map (fun p => [p.text]) ∧
    (∀ ch ∈ (handleStreamResponse items model a today existing uuids createdAt).chunks,
      ch.choices.map (fun c => (c.delta.role, c.delta.reasoning, c.delta.toolCalls)) =
        [("", "", ([] : List ToolCall))]) ∧
    (handleStreamResponse (setThought f items) model a today existing uuids
        createdAt).chunks =
      (handleStreamResponse items model a today existing uuids createdAt).chunks :=
  ⟨streamLoop_contents model uuids createdAt items (0, 0, 0) 0,
   fun ch h => streamLoop_deltaShape model uuids createdAt items (0, 0, 0) 0 ch h,
   streamLoop_thought model uuids createdAt f items (0, 0, 0) 0⟩

/-- C10 witness: one event carrying a thought part and a plain part
streams both texts in order, and the first chunk carries no reasoning. -/
theorem streamThoughtHandling_witness :
    ((handleStreamResponse
        [.data ⟨⟨[⟨⟨"model", [{ text := "T", thought := true }, { text := "A" }]⟩,
          "STOP"⟩], none⟩⟩]
        "m" freshAccount "2026-10-11" none (fun _ => "u") 0).chunks.map
      (fun ch => ch.choices.map (fun c => c.delta.content))) = [["T"], ["A"]] ∧
    (mkChunk "u" "m" 0 "T").choices.map
      (fun c => (c.delta.role, c.delta.reasoning, c.delta.toolCalls)) =
        [("", "", ([] : List ToolCall))] := by
  have h := streamThoughtHandling
    [.data ⟨⟨[⟨⟨"model", [{ text := "T", thought := true }, { text := "A" }]⟩,
      "STOP"⟩], none⟩⟩]
    "m" freshAccount "2026-10-11" none (fun _ => "u") 0 (fun _ => false)
  refine ⟨?_, h.2.1 (mkChunk "u" "m" 0 "T") (by decide)⟩
  rw [h.1]
  decide
